import Mathlib

/-!
# Verification of the DeepLabCut postprocessing pipeline

A shallow embedding of `deeplabcut/pose_estimation_pytorch/data/postprocessor.py`:
the stage classes (`ConcatenateOutputs`, `PadOutputs`, `RescaleAndOffset`,
`BboxToCoco`, `ComposePostprocessor`) and the builder functions
(`build_bottom_up_postprocessor`, `build_detector_postprocessor`).

Modelling conventions:
* A numpy array is a shape (list of axis lengths) together with its buffer in
  row-major order.  Element values are modelled as integers `ℤ`, an exact
  stand-in for the float entries: the properties under study concern shapes,
  ordering, error behaviour and the affine form of the transforms, never float
  rounding.
* Python dicts are association lists (insertion-ordered, keys unique in every
  dict the source builds); `dict[k]` on a missing key is a `KeyError`,
  subscripting `None` is a `TypeError`.
* Code that can raise returns `Except String`; the string is the Python
  exception rendered without its formatted details.
-/

/-- A numpy `ndarray`: the shape and the row-major data buffer.  A real
`ndarray` always satisfies `data.length = shape.prod`; that invariant is the
predicate `NDArray.wf` below and is assumed only where a property needs it. -/
structure NDArray where
  shape : List Nat
  data : List ℤ
deriving DecidableEq, Repr

namespace NDArray

/-- The buffer holds exactly one value per position of the shape. -/
def wf (a : NDArray) : Prop := a.data.length = a.shape.prod

instance (a : NDArray) : Decidable a.wf := by unfold wf; infer_instance

/-- Python `len(a)`: the leading axis length (0 as a default for the rank-0
case, which the paths we reason about never reach). -/
def leadingDim (a : NDArray) : Nat := a.shape.headD 0

/-- Number of elements in one leading-axis slice (product of the tail shape). -/
def tailProd (a : NDArray) : Nat := a.shape.tail.prod

/-- The slice `a[i]` viewed as a flat buffer: the `i`-th leading-axis slice. -/
def row (a : NDArray) (i : Nat) : List ℤ :=
  (a.data.drop (i * a.tailProd)).take a.tailProd

/-- Embeds `np.zeros(shape)`. -/
def zeros (shape : List Nat) : NDArray :=
  ⟨shape, List.replicate shape.prod 0⟩

end NDArray

/-- Python `len(a)` on an `ndarray`: the leading axis length; raises
`TypeError` on a rank-0 array. -/
def pyLen (a : NDArray) : Except String Nat :=
  match a.shape with
  | [] => Except.error "TypeError: len of unsized object"
  | n :: _ => Except.ok n

/-- First-match lookup in an insertion-ordered dict. -/
def lookupKey (k : String) : List (String × α) → Option α
  | [] => none
  | (k₂, v) :: rest => if k₂ = k then some v else lookupKey k rest

/-- Replace the value stored under `k` (Python `d[k] = v` for a present key;
dict order is preserved). -/
def updateKey (k : String) (v : α) : List (String × α) → List (String × α)
  | [] => []
  | (k₂, w) :: rest =>
    if k₂ = k then (k₂, v) :: updateKey k v rest else (k₂, w) :: updateKey k v rest

/-- Left-to-right effectful map, stopping at the first raised exception, as a
Python loop or comprehension does. -/
def mapExcept (f : α → Except String β) : List α → Except String (List β)
  | [] => Except.ok []
  | a :: rest =>
    match f a with
    | Except.error e => Except.error e
    | Except.ok b =>
      match mapExcept f rest with
      | Except.error e => Except.error e
      | Except.ok bs => Except.ok (b :: bs)

/-- Embeds `np.concatenate(arrays)`: join along the existing leading axis.  All inputs
must have rank at least 1 and agree on the tail shape; the result's leading
dimension is the sum of the inputs' and its buffer is the inputs' buffers
joined in order. -/
def concatenateArrays : List NDArray → Except String NDArray
  | [] => Except.error "ValueError: need at least one array to concatenate"
  | a :: rest =>
    if (a :: rest).all (fun b => !b.shape.isEmpty && b.shape.tail == a.shape.tail) then
      Except.ok
        ⟨((a :: rest).map (fun b => b.leadingDim)).sum :: a.shape.tail,
         ((a :: rest).map (fun b => b.data)).flatten⟩
    else Except.error "ValueError: input array dimensions do not match"

/-- The `Context` mapping threaded next to the predictions.  The recognized
keys of the source are explicit optional fields; a `none` field is an absent
key. -/
structure Context where
  scales : Option NDArray := none
  offsets : Option NDArray := none
  bboxes : Option NDArray := none
  bbox_scores : Option NDArray := none
deriving DecidableEq, Repr

/-- One model prediction for one candidate: head name to value name to array
(e.g. `p["bodypart"]["poses"]`). -/
abbrev Prediction := List (String × List (String × NDArray))

/-- The stacked outputs of a stage: output key to array. -/
abbrev Outputs := List (String × NDArray)

/-- Lookup of `p[head][val]` inside one candidate record. -/
def predLookup (p : Prediction) (head val : String) : Except String NDArray :=
  match lookupKey head p with
  | none => Except.error ("KeyError: " ++ head)
  | some vals =>
    match lookupKey val vals with
    | none => Except.error ("KeyError: " ++ val)
    | some arr => Except.ok arr

/-- Configuration fields of `ConcatenateOutputs`, as stored by `__init__`.
`keys_to_concatenate` maps an output key to the (head name, value name) pair
locating the array inside each candidate record. -/
structure ConcatenateOutputs where
  keys_to_concatenate : List (String × String × String)
  empty_shapes : Option (List (String × List Nat))
  create_empty_outputs : Bool
deriving DecidableEq, Repr

/-- The `ValueError` message of the `ConcatenateOutputs.__init__` validation. -/
def emptyShapesValueError : String :=
  "ValueError: You must provide the expected shape for all keys to concatenate when create_empty_outputs is true"

/-- Embeds `ConcatenateOutputs.__init__`: when `create_empty_outputs` is set it
validates `all(k in self.empty_shapes for k in self.keys_to_concatenate)`;
with `empty_shapes = None` the membership test `k in None` itself raises a
`TypeError` as soon as there is one key, and with a dict it raises
`ValueError` when some key has no declared shape. -/
def ConcatenateOutputs.init (keys_to_concatenate : List (String × String × String))
    (empty_shapes : Option (List (String × List Nat))) (create_empty_outputs : Bool) :
    Except String ConcatenateOutputs :=
  if create_empty_outputs then
    match empty_shapes with
    | none =>
      if keys_to_concatenate.isEmpty then
        Except.ok ⟨keys_to_concatenate, none, create_empty_outputs⟩
      else Except.error "TypeError: argument of type NoneType is not iterable"
    | some es =>
      if keys_to_concatenate.all (fun k => (lookupKey k.1 es).isSome) then
        Except.ok ⟨keys_to_concatenate, some es, create_empty_outputs⟩
      else Except.error emptyShapesValueError
  else Except.ok ⟨keys_to_concatenate, empty_shapes, create_empty_outputs⟩

/-- The empty-candidate branch of `ConcatenateOutputs.__call__` builds
`np.zeros((0, *self.empty_shapes[name]))` for one output key; subscripting
runs regardless of `create_empty_outputs`, so `empty_shapes = None` is a
`TypeError` and a missing entry a `KeyError`. -/
def ConcatenateOutputs.emptyEntry (cfg : ConcatenateOutputs)
    (key : String × String × String) : Except String (String × NDArray) :=
  match cfg.empty_shapes with
  | none => Except.error "TypeError: NoneType object is not subscriptable"
  | some es =>
    match lookupKey key.1 es with
    | none => Except.error ("KeyError: " ++ key.1)
    | some shape => Except.ok (key.1, NDArray.zeros (0 :: shape))

/-- One output key of the non-empty branch of `ConcatenateOutputs.__call__`:
`np.concatenate([p[head_name][val_name] for p in predictions])`. -/
def ConcatenateOutputs.concatEntry (predictions : List Prediction)
    (key : String × String × String) : Except String (String × NDArray) :=
  match mapExcept (fun p => predLookup p key.2.1 key.2.2) predictions with
  | Except.error e => Except.error e
  | Except.ok arrays =>
    match concatenateArrays arrays with
    | Except.error e => Except.error e
    | Except.ok c => Except.ok (key.1, c)

/-- Embeds `ConcatenateOutputs.__call__`: with no candidates, emit one empty array per
configured key from the declared empty shapes; otherwise concatenate the
per-candidate arrays along the leading axis, in input order.  The context is
returned unchanged. -/
def ConcatenateOutputs.call (cfg : ConcatenateOutputs) (predictions : List Prediction)
    (context : Context) : Except String (Outputs × Context) :=
  match predictions with
  | [] =>
    match mapExcept cfg.emptyEntry cfg.keys_to_concatenate with
    | Except.error e => Except.error e
    | Except.ok outputs => Except.ok (outputs, context)
  | _ :: _ =>
    match mapExcept (ConcatenateOutputs.concatEntry predictions) cfg.keys_to_concatenate with
    | Except.error e => Except.error e
    | Except.ok outputs => Except.ok (outputs, context)

/-- Configuration fields of `PadOutputs`, as stored by `__init__`.  `pad_value`
is stored but — exactly as in the source — never read by the call below, which
hardcodes `-np.ones(...)`. -/
structure PadOutputs where
  max_individuals : List (String × Nat)
  pad_value : ℤ
deriving DecidableEq, Repr

/-- The body of the `PadOutputs.__call__` loop for one entry of the outputs
dict: look up the target (`self.max_individuals[name]`, a `KeyError` when the
key is not configured) and, when the leading dimension is below it, append
`-np.ones((pad_size, *tail_shape))` via `np.concatenate`. -/
def PadOutputs.padEntry (cfg : PadOutputs) (nv : String × NDArray) :
    Except String (String × NDArray) :=
  match lookupKey nv.1 cfg.max_individuals with
  | none => Except.error ("KeyError: " ++ nv.1)
  | some target =>
    match pyLen nv.2 with
    | Except.error e => Except.error e
    | Except.ok n =>
      if n < target then
        let tail_shape := nv.2.shape.tail
        let padding : NDArray :=
          ⟨(target - n) :: tail_shape, List.replicate ((target - n) * tail_shape.prod) (-1)⟩
        match concatenateArrays [nv.2, padding] with
        | Except.error e => Except.error e
        | Except.ok padded => Except.ok (nv.1, padded)
      else Except.ok nv

/-- Embeds `PadOutputs.__call__`: pad every entry of the outputs dict in place, one
after the other, and return the dict with the context unchanged. -/
def PadOutputs.call (cfg : PadOutputs) (predictions : Outputs) (context : Context) :
    Except String (Outputs × Context) :=
  match mapExcept cfg.padEntry predictions with
  | Except.error e => Except.error e
  | Except.ok updated => Except.ok (updated, context)

namespace RescaleAndOffset

/-- The nested enum `RescaleAndOffset.Mode` of the source. -/
inductive Mode
  | BBOX_XYWH
  | KEYPOINT
  | KEYPOINT_TD
deriving DecidableEq, Repr

end RescaleAndOffset

/-- Configuration fields of `RescaleAndOffset`, as stored by `__init__`. -/
structure RescaleAndOffset where
  keys_to_rescale : List String
  mode : RescaleAndOffset.Mode
deriving DecidableEq, Repr

/-- Map a buffer together with the flat position of each element. -/
def mapIdxFrom (f : Nat → ℤ → ℤ) : Nat → List ℤ → List ℤ
  | _, [] => []
  | k, v :: rest => f k v :: mapIdxFrom f (k + 1) rest

/-- Axis-1 index of the element at flat position `idx` of an array of the
given shape (rank at least 2): which column `a[:, j]` touches it. -/
def colIndex (shape : List Nat) (idx : Nat) : Nat :=
  (idx / (shape.drop 2).prod) % shape.tail.headD 1

/-- Axis-2 index of the element at flat position `idx` (rank at least 3):
which channel `a[:, :, j]` touches it. -/
def axis2Index (shape : List Nat) (idx : Nat) : Nat :=
  (idx / (shape.drop 3).prod) % (shape.drop 2).headD 1

/-- Reads `scales[i]` or `offsets[i]` for the flat 2-vectors the global modes read
(`scales[0]`, `scales[1]` scalars).  The pipeline only ever supplies flat
vectors here; any other rank (which numpy would broadcast elementwise) is
modelled as an error and lies outside every property proved below. -/
def item1D (a : NDArray) (i : Nat) : Except String ℤ :=
  match a.shape with
  | [n] =>
    if i < n then Except.ok (a.data.getD i 0)
    else Except.error "IndexError: index out of range"
  | _ => Except.error "unsupported: scale or offset vector of rank other than 1"

/-- Row `i` of a rank-2 per-candidate scale or offset array, as the 2-vector
`(scale[0], scale[1])` the KEYPOINT_TD branch reads. -/
def rowPair (a : NDArray) (i : Nat) : ℤ × ℤ :=
  ((a.row i).getD 0 0, (a.row i).getD 1 0)

/-- The BBOX_XYWH branch of `RescaleAndOffset.__call__`:
`rescaled[:, 0] = outputs[:, 0] * scales[0] + offsets[0]`,
`rescaled[:, 1] = outputs[:, 1] * scales[1] + offsets[1]`,
`rescaled[:, 2] = outputs[:, 2] * scales[0]`,
`rescaled[:, 3] = outputs[:, 3] * scales[1]` — x and y are scaled and offset,
w and h only scaled.  Column subscripts need rank at least 2 and an axis-1
length of at least 4. -/
def rescaleBBoxXYWH (outputs scales offsets : NDArray) : Except String NDArray :=
  match item1D scales 0, item1D scales 1, item1D offsets 0, item1D offsets 1 with
  | Except.ok sx, Except.ok sy, Except.ok ox, Except.ok oy =>
    if 2 ≤ outputs.shape.length ∧ 4 ≤ outputs.shape.tail.headD 0 then
      Except.ok
        ⟨outputs.shape,
         mapIdxFrom
           (fun idx v =>
             match colIndex outputs.shape idx with
             | 0 => v * sx + ox
             | 1 => v * sy + oy
             | 2 => v * sx
             | 3 => v * sy
             | _ => v)
           0 outputs.data⟩
    else Except.error "IndexError: too many indices or index out of bounds"
  | Except.error e, _, _, _ => Except.error e
  | _, Except.error e, _, _ => Except.error e
  | _, _, Except.error e, _ => Except.error e
  | _, _, _, Except.error e => Except.error e

/-- The KEYPOINT branch of `RescaleAndOffset.__call__`:
`rescaled[:, :, 0] = outputs[:, :, 0] * scales[0] + offsets[0]` and likewise
for channel 1 with `scales[1]`, `offsets[1]`; trailing channels untouched.
Needs rank at least 3 and an axis-2 length of at least 2. -/
def rescaleKeypoint (outputs scales offsets : NDArray) : Except String NDArray :=
  match item1D scales 0, item1D scales 1, item1D offsets 0, item1D offsets 1 with
  | Except.ok sx, Except.ok sy, Except.ok ox, Except.ok oy =>
    if 3 ≤ outputs.shape.length ∧ 2 ≤ (outputs.shape.drop 2).headD 0 then
      Except.ok
        ⟨outputs.shape,
         mapIdxFrom
           (fun idx v =>
             match axis2Index outputs.shape idx with
             | 0 => v * sx + ox
             | 1 => v * sy + oy
             | _ => v)
           0 outputs.data⟩
    else Except.error "IndexError: too many indices or index out of bounds"
  | Except.error e, _, _, _ => Except.error e
  | _, Except.error e, _, _ => Except.error e
  | _, _, Except.error e, _ => Except.error e
  | _, _, _, Except.error e => Except.error e

/-- The message of the KEYPOINT_TD cardinality check. -/
def tdMismatchMsg : String :=
  "ValueError: There must be as many scales and offsets as outputs"

/-- The KEYPOINT_TD branch of `RescaleAndOffset.__call__`: first the
cardinality check `len(outputs) == len(scales) == len(offsets)` (a fatal
`ValueError` on mismatch, raised before anything is produced); zero candidates
are returned as they are; otherwise candidate `i` is rescaled with its own
scale/offset pair `scales[i]`, `offsets[i]` on channels 0 and 1. -/
def rescaleKeypointTD (outputs scales offsets : NDArray) : Except String NDArray :=
  match pyLen outputs, pyLen scales, pyLen offsets with
  | Except.ok nOut, Except.ok nSc, Except.ok nOff =>
    if nOut = nSc ∧ nSc = nOff then
      if nOut = 0 then Except.ok outputs
      else
        if 3 ≤ outputs.shape.length ∧ 2 ≤ (outputs.shape.drop 2).headD 0 ∧
            scales.shape.length = 2 ∧ 2 ≤ scales.shape.tail.headD 0 ∧
            offsets.shape.length = 2 ∧ 2 ≤ offsets.shape.tail.headD 0 then
          Except.ok
            ⟨outputs.shape,
             mapIdxFrom
               (fun idx v =>
                 let i := idx / outputs.tailProd
                 match axis2Index outputs.shape idx with
                 | 0 => v * (rowPair scales i).1 + (rowPair offsets i).1
                 | 1 => v * (rowPair scales i).2 + (rowPair offsets i).2
                 | _ => v)
               0 outputs.data⟩
        else Except.error "IndexError: too many indices or index out of bounds"
    else Except.error tdMismatchMsg
  | Except.error e, _, _ => Except.error e
  | _, Except.error e, _ => Except.error e
  | _, _, Except.error e => Except.error e

/-- Dispatch on `self.mode` inside `RescaleAndOffset.__call__` for one
configured key. -/
def RescaleAndOffset.rescaleOne (mode : RescaleAndOffset.Mode)
    (outputs scales offsets : NDArray) : Except String NDArray :=
  match mode with
  | RescaleAndOffset.Mode.BBOX_XYWH => rescaleBBoxXYWH outputs scales offsets
  | RescaleAndOffset.Mode.KEYPOINT => rescaleKeypoint outputs scales offsets
  | RescaleAndOffset.Mode.KEYPOINT_TD => rescaleKeypointTD outputs scales offsets

/-- The body of the `RescaleAndOffset.__call__` loop for one entry of the
predictions dict: configured keys are rescaled according to the mode, all
other keys are copied through unmodified. -/
def RescaleAndOffset.rescaleEntry (cfg : RescaleAndOffset) (scales offsets : NDArray)
    (nv : String × NDArray) : Except String (String × NDArray) :=
  if nv.1 ∈ cfg.keys_to_rescale then
    match RescaleAndOffset.rescaleOne cfg.mode nv.2 scales offsets with
    | Except.error e => Except.error e
    | Except.ok rescaled => Except.ok (nv.1, rescaled)
  else Except.ok nv

/-- Embeds `RescaleAndOffset.__call__`: pass through untouched when the context has
neither `scales` nor `offsets`; otherwise build a new dict
`updated_predictions`, rescaling the configured keys and copying the others.
A missing half of the scale/offset pair is a `KeyError` (`context["scales"]`
with only `offsets` present, or conversely). -/
def RescaleAndOffset.call (cfg : RescaleAndOffset) (predictions : Outputs)
    (context : Context) : Except String (Outputs × Context) :=
  match context.scales, context.offsets with
  | none, none => Except.ok (predictions, context)
  | optScales, optOffsets =>
    match optScales, optOffsets with
    | none, _ => Except.error "KeyError: scales"
    | _, none => Except.error "KeyError: offsets"
    | some scales, some offsets =>
      match mapExcept (cfg.rescaleEntry scales offsets) predictions with
      | Except.error e => Except.error e
      | Except.ok updated => Except.ok (updated, context)

/-- The source never writes into the caller's `predictions` mapping: it fills
a fresh `updated_predictions` dict and only copies arrays out of the input.
The caller-visible mapping after the call — also after a raise — is therefore
the input itself. -/
def RescaleAndOffset.predictionsAfterCall (cfg : RescaleAndOffset)
    (predictions : Outputs) (context : Context) : Outputs :=
  predictions

/-- Configuration fields of `BboxToCoco`, as stored by `__init__`. -/
structure BboxToCoco where
  bounding_box_keys : List String
deriving DecidableEq, Repr

/-- The in-place body of `BboxToCoco.__call__` on one array:
`arr[:, 2] -= arr[:, 0]` then `arr[:, 3] -= arr[:, 1]` (x1, y1 kept, the
far corner replaced by width and height).  The element a column-2 or
column-3 entry subtracts sits two columns earlier in the same row, at flat
offset `2 * inner`; both subtractions read columns (0 and 1) the first
assignment never wrote, so reading from the original buffer is exact. -/
def bboxXyxyToXywh (arr : NDArray) : Except String NDArray :=
  if 2 ≤ arr.shape.length ∧ 4 ≤ arr.shape.tail.headD 0 then
    Except.ok
      ⟨arr.shape,
       mapIdxFrom
         (fun idx v =>
           match colIndex arr.shape idx with
           | 2 => v - arr.data.getD (idx - 2 * (arr.shape.drop 2).prod) 0
           | 3 => v - arr.data.getD (idx - 2 * (arr.shape.drop 2).prod) 0
           | _ => v)
         0 arr.data⟩
  else Except.error "IndexError: too many indices or index out of bounds"

/-- The loop of `BboxToCoco.__call__` over `self.bounding_box_keys`, mutating
the predictions dict key by key. -/
def BboxToCoco.applyKeys : List String → Outputs → Except String Outputs
  | [], preds => Except.ok preds
  | key :: rest, preds =>
    match lookupKey key preds with
    | none => Except.error ("KeyError: " ++ key)
    | some arr =>
      match bboxXyxyToXywh arr with
      | Except.error e => Except.error e
      | Except.ok newArr => BboxToCoco.applyKeys rest (updateKey key newArr preds)

/-- Embeds `BboxToCoco.__call__`. -/
def BboxToCoco.call (cfg : BboxToCoco) (predictions : Outputs) (context : Context) :
    Except String (Outputs × Context) :=
  match BboxToCoco.applyKeys cfg.bounding_box_keys predictions with
  | Except.error e => Except.error e
  | Except.ok updated => Except.ok (updated, context)

/-- The closed set of postprocessor stages the builders assemble. -/
inductive Stage
  | concatenate : ConcatenateOutputs → Stage
  | rescale : RescaleAndOffset → Stage
  | bboxToCoco : BboxToCoco → Stage
  | pad : PadOutputs → Stage
deriving DecidableEq, Repr

/-- Holder of the ordered stage list of `ComposePostprocessor`, fixed at construction. -/
structure ComposePostprocessor where
  components : List Stage
deriving DecidableEq, Repr

/-- The exception every builder hits when it reaches its `RescaleAndOffset`
component: the source passes `data=RescaleAndOffset.DataType...`, but the
class defines the enum under the name `Mode` and its `__init__` takes the
keyword `mode`.  Python evaluates the attribute access
`RescaleAndOffset.DataType` before the call, raising `AttributeError`. -/
def dataTypeAttributeError : String :=
  "AttributeError: type object RescaleAndOffset has no attribute DataType"

/-- Embeds `build_bottom_up_postprocessor(max_individuals, num_bodyparts,
num_unique_bodyparts)`.  The components list is evaluated element by element:

* `ConcatenateOutputs(...)` is constructed first.  When
  `num_unique_bodyparts > 0` the branch adds `"unique_bodyparts"` to
  `keys_to_concatenate` but then RESETS `empty_shapes` to a dict holding only
  `"bodyparts"` (source line 53), so the constructor validation raises
  `ValueError`.
* Otherwise evaluation reaches the `RescaleAndOffset` element, whose argument
  `RescaleAndOffset.DataType.KEYPOINT` raises `AttributeError`; the
  `PadOutputs` element (`max_individuals` for `"bodyparts"`, 0 for
  `"unique_bodyparts"`, `pad_value=-1`) is never reached. -/
def build_bottom_up_postprocessor (max_individuals num_bodyparts num_unique_bodyparts : Nat) :
    Except String ComposePostprocessor :=
  let keys_to_concatenate :=
    if 0 < num_unique_bodyparts then
      [("bodyparts", "bodypart", "poses"), ("unique_bodyparts", "unique_bodypart", "poses")]
    else [("bodyparts", "bodypart", "poses")]
  let empty_shapes := [("bodyparts", [num_bodyparts, 3])]
  match ConcatenateOutputs.init keys_to_concatenate (some empty_shapes) true with
  | Except.error e => Except.error e
  | Except.ok _ => Except.error dataTypeAttributeError

/-- Embeds `build_detector_postprocessor()`.  The `ConcatenateOutputs` over
`"bboxes"` and `"bbox_scores"` (defaults: no empty shapes, no empty outputs)
and the `BboxToCoco(["bboxes"])` are constructed, then the `RescaleAndOffset`
element raises `AttributeError` on `RescaleAndOffset.DataType.BBOX_XYWH`, so
no pipeline is ever returned. -/
def build_detector_postprocessor : Except String ComposePostprocessor :=
  match
    ConcatenateOutputs.init
      [("bboxes", "detection", "bboxes"), ("bbox_scores", "detection", "scores")]
      none false
  with
  | Except.error e => Except.error e
  | Except.ok _ =>
    let _bbox_to_coco : BboxToCoco := ⟨["bboxes"]⟩
    Except.error dataTypeAttributeError

/-- Modelled from the spec words of C5, for comparison with the source: to
"stack the per-candidate arrays along a new leading axis" is `np.stack`, whose
result has shape `(len(arrays), *arrays[0].shape)`.  The source instead calls
`np.concatenate`, which joins along the existing leading axis. -/
def stackNewAxis (arrays : List NDArray) : NDArray :=
  ⟨arrays.length :: (arrays.headD ⟨[], []⟩).shape,
   (arrays.map (fun b => b.data)).flatten⟩

/-! ## General lemmas about the embedding combinators -/

theorem pyLen_of_shape_ne_nil (a : NDArray) (h : a.shape ≠ []) :
    pyLen a = Except.ok a.leadingDim := by
  cases hs : a.shape with
  | nil => exact absurd hs h
  | cons n t => simp [pyLen, NDArray.leadingDim, hs]

theorem mapExcept_congr_ok (f : α → Except String β) (g : α → β) :
    ∀ l : List α, (∀ a ∈ l, f a = Except.ok (g a)) →
      mapExcept f l = Except.ok (l.map g)
  | [], _ => rfl
  | a :: rest, h => by
    have ha := h a (List.mem_cons_self a rest)
    have hr := mapExcept_congr_ok f g rest (fun b hb => h b (List.mem_cons_of_mem a hb))
    simp [mapExcept, ha, hr]

theorem mapExcept_ok_exists (f : α → Except String β) :
    ∀ l : List α, (∀ a ∈ l, ∃ b, f a = Except.ok b) →
      ∃ bs, mapExcept f l = Except.ok bs ∧
        List.Forall₂ (fun a b => f a = Except.ok b) l bs
  | [], _ => ⟨[], rfl, List.Forall₂.nil⟩
  | a :: rest, h => by
    obtain ⟨b, hb⟩ := h a (List.mem_cons_self a rest)
    obtain ⟨bs, hbs, hf⟩ :=
      mapExcept_ok_exists f rest (fun c hc => h c (List.mem_cons_of_mem a hc))
    exact ⟨b :: bs, by simp [mapExcept, hb, hbs], List.Forall₂.cons hb hf⟩

theorem mapExcept_ok_mem (f : α → Except String β) :
    ∀ (l : List α) (bs : List β), mapExcept f l = Except.ok bs →
      ∀ a ∈ l, ∃ b, f a = Except.ok b
  | [], _, _, a, ha => absurd ha (List.not_mem_nil a)
  | a₂ :: rest, bs, h, a, ha => by
    cases hfa : f a₂ with
    | error e => simp [mapExcept, hfa] at h
    | ok b =>
      cases hrest : mapExcept f rest with
      | error e => simp [mapExcept, hfa, hrest] at h
      | ok bs₂ =>
        rcases List.mem_cons.mp ha with rfl | hmem
        · exact ⟨b, hfa⟩
        · exact mapExcept_ok_mem f rest bs₂ hrest a hmem

theorem mapExcept_error_of_mem (f : α → Except String β) (msg : String) :
    ∀ l : List α,
      (∀ a ∈ l, (∃ b, f a = Except.ok b) ∨ f a = Except.error msg) →
      (∃ a ∈ l, f a = Except.error msg) →
      mapExcept f l = Except.error msg
  | [], _, hex => absurd hex (by simp)
  | a :: rest, h, hex => by
    rcases h a (List.mem_cons_self a rest) with ⟨b, hb⟩ | herr
    · have hrest : ∃ c ∈ rest, f c = Except.error msg := by
        rcases hex with ⟨c, hc, hfc⟩
        rcases List.mem_cons.mp hc with rfl | hmem
        · rw [hb] at hfc; cases hfc
        · exact ⟨c, hmem, hfc⟩
      have hr :=
        mapExcept_error_of_mem f msg rest
          (fun c hc => h c (List.mem_cons_of_mem a hc)) hrest
      simp [mapExcept, hb, hr]
    · simp [mapExcept, herr]

theorem mapIdxFrom_drop (f : Nat → ℤ → ℤ) :
    ∀ (l : List ℤ) (k n : Nat), (mapIdxFrom f k l).drop n = mapIdxFrom f (k + n) (l.drop n)
  | [], k, n => by simp [mapIdxFrom]
  | v :: rest, k, 0 => by simp [mapIdxFrom]
  | v :: rest, k, n + 1 => by
    simp only [mapIdxFrom, List.drop_succ_cons]
    rw [mapIdxFrom_drop f rest (k + 1) n, (by omega : k + 1 + n = k + (n + 1))]

theorem mapIdxFrom_take (f : Nat → ℤ → ℤ) :
    ∀ (l : List ℤ) (k n : Nat), (mapIdxFrom f k l).take n = mapIdxFrom f k (l.take n)
  | [], k, n => by simp [mapIdxFrom]
  | v :: rest, k, 0 => by simp [mapIdxFrom]
  | v :: rest, k, n + 1 => by
    simp only [mapIdxFrom, List.take_succ_cons]
    rw [mapIdxFrom_take f rest (k + 1) n]

theorem mapIdxFrom_length (f : Nat → ℤ → ℤ) :
    ∀ (l : List ℤ) (k : Nat), (mapIdxFrom f k l).length = l.length
  | [], _ => rfl
  | v :: rest, k => by simp [mapIdxFrom, mapIdxFrom_length f rest (k + 1)]

/-- Rows of a flat-index transform: row `r` of the mapped buffer is the
transform of row `r` of the original, with flat positions starting at
`r * tailProd`. -/
theorem row_mapIdxFrom (a : NDArray) (f : Nat → ℤ → ℤ) (r : Nat) :
    NDArray.row ⟨a.shape, mapIdxFrom f 0 a.data⟩ r =
      mapIdxFrom f (r * a.tailProd) (a.row r) := by
  show ((mapIdxFrom f 0 a.data).drop (r * a.shape.tail.prod)).take a.shape.tail.prod =
    mapIdxFrom f (r * a.shape.tail.prod) ((a.data.drop (r * a.shape.tail.prod)).take a.shape.tail.prod)
  rw [mapIdxFrom_drop, mapIdxFrom_take, Nat.zero_add]

/-- Drop-take out of a flattening of equal-length chunks recovers chunk `i`. -/
theorem flatten_drop_take (m : Nat) :
    ∀ (ls : List (List ℤ)) (i : Nat), (∀ l ∈ ls, l.length = m) → i < ls.length →
      (ls.flatten.drop (i * m)).take m = ls.getD i []
  | [], i, _, hi => absurd hi (by simp)
  | l :: rest, 0, hlen, _ => by
    have hl := hlen l (List.mem_cons_self _ _)
    simp only [List.flatten_cons, Nat.zero_mul, List.drop_zero, List.getD_cons_zero]
    rw [List.take_append_of_le_length (by omega), ← hl, List.take_length]
  | l :: rest, i + 1, hlen, hi => by
    have hl := hlen l (List.mem_cons_self _ _)
    simp only [List.flatten_cons, List.getD_cons_succ]
    rw [(by rw [hl]; ring : (i + 1) * m = l.length + i * m), List.drop_append]
    exact flatten_drop_take m rest i (fun c hc => hlen c (List.mem_cons_of_mem _ hc))
      (by simpa using hi)

/-! ## Claims -/

/-- C1: the claim says that for every `num_unique_bodyparts > 0` the bottom-up
builder returns, without raising, a pipeline whose `ConcatenateOutputs` holds
an empty-shape entry for both `bodyparts` and `unique_bodyparts`.  On the
source this is false: the unique-bodyparts branch resets `empty_shapes` to a
dict holding only `bodyparts`, so the `ConcatenateOutputs` constructor
validation raises `ValueError` and the builder never returns. -/
theorem C1_bottom_up_builder_raises (max_individuals num_bodyparts num_unique_bodyparts : Nat)
    (h : 0 < num_unique_bodyparts) :
    build_bottom_up_postprocessor max_individuals num_bodyparts num_unique_bodyparts =
      Except.error emptyShapesValueError := by
  simp [build_bottom_up_postprocessor, if_pos h, ConcatenateOutputs.init, lookupKey]

/-- C1 witness: the builder raises at the concrete failing input
`max_individuals = 1, num_bodyparts = 2, num_unique_bodyparts = 1`. -/
theorem C1_bottom_up_builder_raises_witness :
    0 < 1 ∧
    build_bottom_up_postprocessor 1 2 1 = Except.error emptyShapesValueError :=
  ⟨Nat.one_pos, C1_bottom_up_builder_raises 1 2 1 Nat.one_pos⟩

/-- C2: the claim says every call of `build_detector_postprocessor` returns,
without raising, the concatenate / bbox-conversion / rescale pipeline.  On the
source it never returns: after constructing the `ConcatenateOutputs` and
`BboxToCoco` stages, evaluation of the argument
`RescaleAndOffset.DataType.BBOX_XYWH` raises `AttributeError` (the class
defines `Mode` and its constructor takes `mode`, not `data`). -/
theorem C2_detector_builder_raises :
    build_detector_postprocessor = Except.error dataTypeAttributeError := rfl

/-- C6: `PadOutputs.__call__` appends `-np.ones(...)`, ignoring the stored
`pad_value`.  With `pad_value = 5` and a configured key one row below its
target of 2, the appended row is filled with `-1`, not with 5. -/
theorem C6_pad_value_ignored :
    (PadOutputs.mk [("k", 2)] 5).pad_value = 5 ∧
    PadOutputs.call ⟨[("k", 2)], 5⟩ [("k", ⟨[1, 1], [9]⟩)] ⟨none, none, none, none⟩ =
      Except.ok ([("k", ⟨[2, 1], [9, -1]⟩)], ⟨none, none, none, none⟩) :=
  ⟨rfl, rfl⟩

/-- C10: with the constructor defaults (`create_empty_outputs = False`, no
`empty_shapes`), as in the detector builder, construction succeeds but a call
on an empty candidate list enters the empty branch regardless of the flag and
subscripts `None`, raising `TypeError` — no empty outputs are produced. -/
theorem C10_default_empty_branch_raises (keys : List (String × String × String))
    (ctx : Context) (h : keys ≠ []) :
    ConcatenateOutputs.init keys none false = Except.ok ⟨keys, none, false⟩ ∧
    ConcatenateOutputs.call ⟨keys, none, false⟩ [] ctx =
      Except.error "TypeError: NoneType object is not subscriptable" := by
  constructor
  · rfl
  · cases keys with
    | nil => exact absurd rfl h
    | cons k rest =>
      simp [ConcatenateOutputs.call, mapExcept, ConcatenateOutputs.emptyEntry]

/-- C10 witness: the detector configuration (keys `bboxes`, `bbox_scores`). -/
theorem C10_default_empty_branch_raises_witness :
    ([("bboxes", "detection", "bboxes"), ("bbox_scores", "detection", "scores")] ≠
      ([] : List (String × String × String))) ∧
    ConcatenateOutputs.call
        ⟨[("bboxes", "detection", "bboxes"), ("bbox_scores", "detection", "scores")], none, false⟩
        [] ⟨none, none, none, none⟩ =
      Except.error "TypeError: NoneType object is not subscriptable" :=
  ⟨by simp,
   (C10_default_empty_branch_raises
      [("bboxes", "detection", "bboxes"), ("bbox_scores", "detection", "scores")]
      ⟨none, none, none, none⟩ (by simp)).2⟩

/-- C4: a `ConcatenateOutputs` with `create_empty_outputs = True` and a
declared empty shape for every configured key constructs successfully, and on
an empty candidate list returns, for every configured key, an array of shape
`(0, *declared_shape)`, with the context unchanged. -/
theorem C4_concatenate_empty_candidates (keys : List (String × String × String))
    (es : List (String × List Nat)) (ctx : Context)
    (hcover : ∀ k ∈ keys, (lookupKey k.1 es).isSome) :
    ConcatenateOutputs.init keys (some es) true = Except.ok ⟨keys, some es, true⟩ ∧
    ∃ outs, ConcatenateOutputs.call ⟨keys, some es, true⟩ [] ctx = Except.ok (outs, ctx) ∧
      List.Forall₂
        (fun k nv => nv.1 = k.1 ∧
          ∀ shape, lookupKey k.1 es = some shape →
            nv.2 = NDArray.zeros (0 :: shape) ∧ nv.2.shape = 0 :: shape)
        keys outs := by
  constructor
  · have hall : keys.all (fun k => (lookupKey k.1 es).isSome) = true :=
      List.all_eq_true.mpr hcover
    simp [ConcatenateOutputs.init, hall]
  · have hpoint : ∀ k ∈ keys,
        ∃ nv, ConcatenateOutputs.emptyEntry ⟨keys, some es, true⟩ k = Except.ok nv := by
      intro k hk
      have := hcover k hk
      cases hlk : lookupKey k.1 es with
      | none => rw [hlk] at this; cases this
      | some shape =>
        exact ⟨(k.1, NDArray.zeros (0 :: shape)),
          by simp [ConcatenateOutputs.emptyEntry, hlk]⟩
    obtain ⟨outs, houts, hf⟩ := mapExcept_ok_exists _ keys hpoint
    refine ⟨outs, by simp [ConcatenateOutputs.call, houts], ?_⟩
    refine hf.imp ?_
    intro k nv h
    cases hlk : lookupKey k.1 es with
    | none =>
      simp [ConcatenateOutputs.emptyEntry, hlk] at h
    | some shape₀ =>
      simp [ConcatenateOutputs.emptyEntry, hlk] at h
      refine ⟨by rw [← h], ?_⟩
      intro shape hs
      cases hs
      exact ⟨h.symm ▸ rfl, by rw [← h]; rfl⟩

/-- C4 witness: one configured key with declared empty shape `(2, 3)`. -/
theorem C4_concatenate_empty_candidates_witness :
    (∀ k ∈ [("bodyparts", "bodypart", "poses")],
      (lookupKey k.1 [("bodyparts", [2, 3])]).isSome) ∧
    (ConcatenateOutputs.init [("bodyparts", "bodypart", "poses")] (some [("bodyparts", [2, 3])])
        true =
      Except.ok ⟨[("bodyparts", "bodypart", "poses")], some [("bodyparts", [2, 3])], true⟩ ∧
    ∃ outs,
      ConcatenateOutputs.call
          ⟨[("bodyparts", "bodypart", "poses")], some [("bodyparts", [2, 3])], true⟩ []
          ⟨none, none, none, none⟩ =
        Except.ok (outs, ⟨none, none, none, none⟩) ∧
      List.Forall₂
        (fun k nv => nv.1 = k.1 ∧
          ∀ shape, lookupKey k.1 [("bodyparts", [2, 3])] = some shape →
            nv.2 = NDArray.zeros (0 :: shape) ∧ nv.2.shape = 0 :: shape)
        [("bodyparts", "bodypart", "poses")] outs) :=
  ⟨by decide,
   C4_concatenate_empty_candidates [("bodyparts", "bodypart", "poses")] [("bodyparts", [2, 3])]
     ⟨none, none, none, none⟩ (by decide)⟩

/-- KEYPOINT_TD fails its cardinality check whenever the candidate count,
scale count and offset count are not all equal. -/
theorem rescaleKeypointTD_mismatch (outputs scales offsets : NDArray)
    (ho : outputs.shape ≠ []) (hs : scales.shape ≠ []) (hf : offsets.shape ≠ [])
    (hmm : ¬(outputs.leadingDim = scales.leadingDim ∧
      scales.leadingDim = offsets.leadingDim)) :
    rescaleKeypointTD outputs scales offsets = Except.error tdMismatchMsg := by
  unfold rescaleKeypointTD
  rw [pyLen_of_shape_ne_nil _ ho, pyLen_of_shape_ne_nil _ hs, pyLen_of_shape_ne_nil _ hf]
  simp [hmm]

/-- C3: in KEYPOINT_TD mode, whenever the predictions contain a configured
key and the candidate count, scale count and offset count are not all equal,
the stage raises the cardinality `ValueError` and produces no output; the
input predictions mapping is left unchanged (the source never writes into
it). -/
theorem C3_keypoint_td_mismatch_raises (cfg : RescaleAndOffset) (preds : Outputs)
    (ctx : Context) (s o : NDArray)
    (hmode : cfg.mode = RescaleAndOffset.Mode.KEYPOINT_TD)
    (hsc : ctx.scales = some s) (hof : ctx.offsets = some o)
    (hs : s.shape ≠ []) (ho : o.shape ≠ [])
    (hall : ∀ nv ∈ preds, nv.1 ∈ cfg.keys_to_rescale →
      nv.2.shape ≠ [] ∧
      ¬(nv.2.leadingDim = s.leadingDim ∧ s.leadingDim = o.leadingDim))
    (hex : ∃ nv ∈ preds, nv.1 ∈ cfg.keys_to_rescale) :
    cfg.call preds ctx = Except.error tdMismatchMsg ∧
    cfg.predictionsAfterCall preds ctx = preds := by
  refine ⟨?_, rfl⟩
  have hentry : ∀ nv ∈ preds, nv.1 ∈ cfg.keys_to_rescale →
      cfg.rescaleEntry s o nv = Except.error tdMismatchMsg := by
    intro nv hnv hk
    have hmm := hall nv hnv hk
    have herr := rescaleKeypointTD_mismatch nv.2 s o hmm.1 hs ho hmm.2
    simp [RescaleAndOffset.rescaleEntry, hk, RescaleAndOffset.rescaleOne, hmode, herr]
  have herr : mapExcept (cfg.rescaleEntry s o) preds = Except.error tdMismatchMsg := by
    refine mapExcept_error_of_mem _ _ preds ?_ ?_
    · intro nv hnv
      by_cases hk : nv.1 ∈ cfg.keys_to_rescale
      · exact Or.inr (hentry nv hnv hk)
      · exact Or.inl ⟨nv, by simp [RescaleAndOffset.rescaleEntry, hk]⟩
    · obtain ⟨nv, hnv, hk⟩ := hex
      exact ⟨nv, hnv, hentry nv hnv hk⟩
  simp [RescaleAndOffset.call, hsc, hof, herr]

/-- C3 witness: one configured key with 3 candidates against 2 scales and 2
offsets — the spec example — raises the cardinality error. -/
theorem C3_keypoint_td_mismatch_raises_witness :
    ((⟨["bodyparts"], RescaleAndOffset.Mode.KEYPOINT_TD⟩ : RescaleAndOffset).call
        [("bodyparts", ⟨[3, 1, 2], [1, 2, 3, 4, 5, 6]⟩)]
        ⟨some ⟨[2, 2], [1, 1, 1, 1]⟩, some ⟨[2, 2], [0, 0, 0, 0]⟩, none, none⟩ =
      Except.error tdMismatchMsg) ∧
    RescaleAndOffset.predictionsAfterCall ⟨["bodyparts"], RescaleAndOffset.Mode.KEYPOINT_TD⟩
        [("bodyparts", ⟨[3, 1, 2], [1, 2, 3, 4, 5, 6]⟩)]
        ⟨some ⟨[2, 2], [1, 1, 1, 1]⟩, some ⟨[2, 2], [0, 0, 0, 0]⟩, none, none⟩ =
      [("bodyparts", ⟨[3, 1, 2], [1, 2, 3, 4, 5, 6]⟩)] :=
  C3_keypoint_td_mismatch_raises
    ⟨["bodyparts"], RescaleAndOffset.Mode.KEYPOINT_TD⟩
    [("bodyparts", ⟨[3, 1, 2], [1, 2, 3, 4, 5, 6]⟩)]
    ⟨some ⟨[2, 2], [1, 1, 1, 1]⟩, some ⟨[2, 2], [0, 0, 0, 0]⟩, none, none⟩
    ⟨[2, 2], [1, 1, 1, 1]⟩ ⟨[2, 2], [0, 0, 0, 0]⟩
    rfl rfl rfl (by decide) (by decide) (by decide) (by decide)

/-- C8 counterexample: an outputs dict holding only the key `extra`, which is
not configured in `max_individuals`, makes `PadOutputs.__call__` raise
`KeyError` — the call does not succeed, refuting the claim as stated. -/
theorem C8_unconfigured_key_counterexample :
    PadOutputs.call ⟨[], -1⟩ [("extra", ⟨[1], [0]⟩)] ⟨none, none, none, none⟩ =
      Except.error "KeyError: extra" := rfl

/-- C8 amended: the loop looks up `self.max_individuals[name]` for every key
of the outputs, so a key present in the outputs but missing from the
configured mapping makes the call fail with a key-lookup error instead of
leaving the entry unchanged. -/
theorem C8_unconfigured_key_raises (cfg : PadOutputs) (preds : Outputs) (ctx : Context)
    (hex : ∃ nv ∈ preds, lookupKey nv.1 cfg.max_individuals = none) :
    ∃ msg, cfg.call preds ctx = Except.error msg := by
  cases hm : mapExcept cfg.padEntry preds with
  | error e => exact ⟨e, by simp [PadOutputs.call, hm]⟩
  | ok outs =>
    obtain ⟨nv, hnv, hlk⟩ := hex
    obtain ⟨b, hb⟩ := mapExcept_ok_mem _ preds outs hm nv hnv
    simp [PadOutputs.padEntry, hlk] at hb

/-- C8 witness: a configured key followed by an unconfigured one. -/
theorem C8_unconfigured_key_raises_witness :
    (∃ nv ∈ [(("a" : String), (⟨[1], [5]⟩ : NDArray)), ("extra", ⟨[2], [1, 2]⟩)],
      lookupKey nv.1 [(("a" : String), (2 : Nat))] = none) ∧
    ∃ msg, PadOutputs.call ⟨[("a", 2)], -1⟩
        [("a", ⟨[1], [5]⟩), ("extra", ⟨[2], [1, 2]⟩)] ⟨none, none, none, none⟩ =
      Except.error msg :=
  ⟨by decide,
   C8_unconfigured_key_raises ⟨[("a", 2)], -1⟩
     [("a", ⟨[1], [5]⟩), ("extra", ⟨[2], [1, 2]⟩)] ⟨none, none, none, none⟩ (by decide)⟩

/-- A configured entry at or above its target (or with target 0) is returned
unchanged by the `PadOutputs` loop body. -/
theorem padEntry_no_pad (cfg : PadOutputs) (nv : String × NDArray) (t : Nat)
    (hl : lookupKey nv.1 cfg.max_individuals = some t) (hs : nv.2.shape ≠ [])
    (ht : ¬ nv.2.leadingDim < t) :
    cfg.padEntry nv = Except.ok nv := by
  unfold PadOutputs.padEntry
  rw [hl, pyLen_of_shape_ne_nil _ hs]
  simp [ht]

/-- A configured entry below its target gets exactly `target - current` rows
of `-1` appended to its buffer, its leading dimension becoming the target. -/
theorem padEntry_pad (cfg : PadOutputs) (nv : String × NDArray) (t : Nat)
    (hl : lookupKey nv.1 cfg.max_individuals = some t) (hs : nv.2.shape ≠ [])
    (ht : nv.2.leadingDim < t) :
    cfg.padEntry nv = Except.ok (nv.1,
      ⟨t :: nv.2.shape.tail,
       nv.2.data ++
         List.replicate ((t - nv.2.leadingDim) * nv.2.shape.tail.prod) (-1)⟩) := by
  obtain ⟨name, arr⟩ := nv
  cases harr : arr.shape with
  | nil => exact absurd harr hs
  | cons n tail =>
    have hn : arr.leadingDim = n := by simp [NDArray.leadingDim, harr]
    rw [hn] at ht
    unfold PadOutputs.padEntry
    rw [hl, pyLen_of_shape_ne_nil _ hs, hn]
    have hsum : n + (t - n) = t := by omega
    simp [ht, concatenateArrays, harr, NDArray.leadingDim, hsum, hn]

/-- Appending rows to a buffer does not change the rows that already exist. -/
theorem row_append_of_lt (arr : NDArray) (n : Nat) (tail : List Nat) (t : Nat)
    (extra : List ℤ) (harr : arr.shape = n :: tail) (hwf : arr.wf) (i : Nat) (hi : i < n) :
    NDArray.row ⟨t :: tail, arr.data ++ extra⟩ i = arr.row i := by
  have hlen : arr.data.length = n * tail.prod := by
    unfold NDArray.wf at hwf; rw [harr] at hwf; simpa using hwf
  show ((arr.data ++ extra).drop (i * tail.prod)).take tail.prod =
    (arr.data.drop (i * arr.shape.tail.prod)).take arr.shape.tail.prod
  rw [harr, List.tail_cons]
  have hle1 : i * tail.prod ≤ arr.data.length := by
    rw [hlen]; exact Nat.mul_le_mul_right _ (by omega)
  rw [List.drop_append_of_le_length hle1]
  have hle2 : tail.prod ≤ (arr.data.drop (i * tail.prod)).length := by
    rw [List.length_drop, hlen, ← Nat.sub_mul]
    exact Nat.le_mul_of_pos_left _ (by omega)
  rw [List.take_append_of_le_length hle2]

/-- A membership-aware strengthening of `List.Forall₂.imp`. -/
theorem forall₂_imp_of_mem {R S : α → β → Prop} :
    ∀ {l₁ : List α} {l₂ : List β}, List.Forall₂ R l₁ l₂ →
      (∀ a b, a ∈ l₁ → R a b → S a b) → List.Forall₂ S l₁ l₂
  | _, _, List.Forall₂.nil, _ => List.Forall₂.nil
  | _, _, List.Forall₂.cons hab h, himp =>
    List.Forall₂.cons (himp _ _ (List.mem_cons_self _ _) hab)
      (forall₂_imp_of_mem h (fun a b ha => himp a b (List.mem_cons_of_mem _ ha)))

/-- Every right member of a `Forall₂` is related to some left member. -/
theorem forall₂_right_mem {R : α → β → Prop} :
    ∀ {l₁ : List α} {l₂ : List β}, List.Forall₂ R l₁ l₂ →
      ∀ b ∈ l₂, ∃ a ∈ l₁, R a b
  | _, _, List.Forall₂.nil, b, hb => absurd hb (List.not_mem_nil b)
  | _, _, List.Forall₂.cons hab h, b, hb => by
    rcases List.mem_cons.mp hb with rfl | hmem
    · exact ⟨_, List.mem_cons_self _ _, hab⟩
    · obtain ⟨a, ha, hr⟩ := forall₂_right_mem h b hmem
      exact ⟨a, List.mem_cons_of_mem _ ha, hr⟩

/-- The full behaviour of the `PadOutputs` loop on well-shaped, fully
configured outputs: it succeeds, each entry is padded exactly to its target
(or kept when at/above target or target 0) with existing rows unaltered, and
every produced entry is a fixpoint of the loop body. -/
theorem padOutputs_loop_spec (cfg : PadOutputs) :
    ∀ preds : Outputs,
      (∀ nv ∈ preds, (lookupKey nv.1 cfg.max_individuals).isSome) →
      (∀ nv ∈ preds, nv.2.shape ≠ []) →
      (∀ nv ∈ preds, nv.2.wf) →
      ∃ outs, mapExcept cfg.padEntry preds = Except.ok outs ∧
        List.Forall₂
          (fun nv nv' => nv'.1 = nv.1 ∧ cfg.padEntry nv' = Except.ok nv' ∧
            ∀ t, lookupKey nv.1 cfg.max_individuals = some t →
              ((t = 0 ∨ t ≤ nv.2.leadingDim) → nv' = nv) ∧
              (nv.2.leadingDim < t →
                nv'.2.shape = t :: nv.2.shape.tail ∧
                nv'.2.data = nv.2.data ++
                  List.replicate ((t - nv.2.leadingDim) * nv.2.shape.tail.prod) (-1) ∧
                ∀ i, i < nv.2.leadingDim → nv'.2.row i = nv.2.row i))
          preds outs
  | [], _, _, _ => ⟨[], rfl, List.Forall₂.nil⟩
  | nv :: rest, h1, h2, h3 => by
    obtain ⟨outs, hm, hf⟩ :=
      padOutputs_loop_spec cfg rest
        (fun a ha => h1 a (List.mem_cons_of_mem _ ha))
        (fun a ha => h2 a (List.mem_cons_of_mem _ ha))
        (fun a ha => h3 a (List.mem_cons_of_mem _ ha))
    have hsome := h1 nv (List.mem_cons_self _ _)
    have hshape := h2 nv (List.mem_cons_self _ _)
    have hwf := h3 nv (List.mem_cons_self _ _)
    cases hlk : lookupKey nv.1 cfg.max_individuals with
    | none => rw [hlk] at hsome; cases hsome
    | some t =>
      cases harr : nv.2.shape with
      | nil => exact absurd harr hshape
      | cons n tail =>
        have hn : nv.2.leadingDim = n := by simp [NDArray.leadingDim, harr]
        by_cases hlt : nv.2.leadingDim < t
        · -- below the target: the entry is padded up to it
          have hb := padEntry_pad cfg nv t hlk hshape hlt
          refine ⟨(nv.1,
              ⟨t :: nv.2.shape.tail,
               nv.2.data ++
                 List.replicate ((t - nv.2.leadingDim) * nv.2.shape.tail.prod) (-1)⟩) :: outs,
            by simp [mapExcept, hb, hm], List.Forall₂.cons ⟨rfl, ?_, ?_⟩ hf⟩
          · refine padEntry_no_pad cfg _ t hlk (by simp [harr]) ?_
            simp [NDArray.leadingDim]
          · intro t₂ ht₂
            rw [hlk] at ht₂
            cases ht₂
            refine ⟨fun hc => absurd hlt (by omega), fun _ => ⟨rfl, rfl, ?_⟩⟩
            intro i hi
            rw [hn] at hi
            rw [harr, List.tail_cons]
            exact row_append_of_lt nv.2 n tail t _ harr hwf i hi
        · -- target 0 or already at/above target: unchanged
          have hb := padEntry_no_pad cfg nv t hlk hshape hlt
          refine ⟨nv :: outs, by simp [mapExcept, hb, hm],
            List.Forall₂.cons ⟨rfl, hb, ?_⟩ hf⟩
          intro t₂ ht₂
          rw [hlk] at ht₂
          cases ht₂
          exact ⟨fun _ => rfl, fun hc => absurd hc hlt⟩

/-- C7: `PadOutputs` never truncates and is idempotent: a configured key with
target 0 or already at/above its target is unchanged, a key below target gets
exactly `target - current` appended rows with every existing row unaltered,
and a second application returns the padded outputs as they are. -/
theorem C7_pad_no_truncate_idempotent (cfg : PadOutputs) (preds : Outputs) (ctx : Context)
    (h1 : ∀ nv ∈ preds, (lookupKey nv.1 cfg.max_individuals).isSome)
    (h2 : ∀ nv ∈ preds, nv.2.shape ≠ [])
    (h3 : ∀ nv ∈ preds, nv.2.wf) :
    ∃ outs, cfg.call preds ctx = Except.ok (outs, ctx) ∧
      List.Forall₂
        (fun nv nv' => nv'.1 = nv.1 ∧
          ∀ t, lookupKey nv.1 cfg.max_individuals = some t →
            ((t = 0 ∨ t ≤ nv.2.leadingDim) → nv' = nv) ∧
            (nv.2.leadingDim < t →
              nv'.2.shape = t :: nv.2.shape.tail ∧
              nv'.2.data = nv.2.data ++
                List.replicate ((t - nv.2.leadingDim) * nv.2.shape.tail.prod) (-1) ∧
              ∀ i, i < nv.2.leadingDim → nv'.2.row i = nv.2.row i))
        preds outs ∧
      cfg.call outs ctx = Except.ok (outs, ctx) := by
  obtain ⟨outs, hm, hf⟩ := padOutputs_loop_spec cfg preds h1 h2 h3
  have hfix : ∀ b ∈ outs, cfg.padEntry b = Except.ok b := by
    intro b hb
    obtain ⟨a, _, hr⟩ := forall₂_right_mem hf b hb
    exact hr.2.1
  have hmap : mapExcept cfg.padEntry outs = Except.ok (outs.map id) :=
    mapExcept_congr_ok _ id outs (fun b hb => by simpa using hfix b hb)
  rw [List.map_id] at hmap
  exact ⟨outs, by simp [PadOutputs.call, hm],
    hf.imp (fun a b h => ⟨h.1, h.2.2⟩), by simp [PadOutputs.call, hmap]⟩

/-- C7 witness: key `a` one row below target 3, key `b` with target 0. -/
theorem C7_pad_no_truncate_idempotent_witness :
    (∀ nv ∈ [(("a" : String), (⟨[1, 2], [1, 2]⟩ : NDArray)), ("b", ⟨[2], [4, 5]⟩)],
      (lookupKey nv.1 [(("a" : String), (3 : Nat)), ("b", 0)]).isSome) ∧
    (∀ nv ∈ [(("a" : String), (⟨[1, 2], [1, 2]⟩ : NDArray)), ("b", ⟨[2], [4, 5]⟩)],
      nv.2.shape ≠ []) ∧
    (∀ nv ∈ [(("a" : String), (⟨[1, 2], [1, 2]⟩ : NDArray)), ("b", ⟨[2], [4, 5]⟩)],
      nv.2.wf) ∧
    ∃ outs,
      PadOutputs.call ⟨[("a", 3), ("b", 0)], -1⟩
          [("a", ⟨[1, 2], [1, 2]⟩), ("b", ⟨[2], [4, 5]⟩)] ⟨none, none, none, none⟩ =
        Except.ok (outs, ⟨none, none, none, none⟩) ∧
      List.Forall₂
        (fun nv nv' => nv'.1 = nv.1 ∧
          ∀ t, lookupKey nv.1 [(("a" : String), (3 : Nat)), ("b", 0)] = some t →
            ((t = 0 ∨ t ≤ nv.2.leadingDim) → nv' = nv) ∧
            (nv.2.leadingDim < t →
              nv'.2.shape = t :: nv.2.shape.tail ∧
              nv'.2.data = nv.2.data ++
                List.replicate ((t - nv.2.leadingDim) * nv.2.shape.tail.prod) (-1) ∧
              ∀ i, i < nv.2.leadingDim → nv'.2.row i = nv.2.row i))
        [("a", ⟨[1, 2], [1, 2]⟩), ("b", ⟨[2], [4, 5]⟩)] outs ∧
      PadOutputs.call ⟨[("a", 3), ("b", 0)], -1⟩ outs ⟨none, none, none, none⟩ =
        Except.ok (outs, ⟨none, none, none, none⟩) :=
  ⟨by decide, by decide, by decide,
   C7_pad_no_truncate_idempotent ⟨[("a", 3), ("b", 0)], -1⟩
     [("a", ⟨[1, 2], [1, 2]⟩), ("b", ⟨[2], [4, 5]⟩)] ⟨none, none, none, none⟩
     (by decide) (by decide) (by decide)⟩

/-- On an array of rank at least 2 with at least 4 columns, and flat global
scale and offset 2-vectors, the BBOX_XYWH branch succeeds and is the
column transform of the source. -/
theorem rescaleBBoxXYWH_eq (arr : NDArray) (sx sy ox oy : ℤ)
    (hc : 2 ≤ arr.shape.length ∧ 4 ≤ arr.shape.tail.headD 0) :
    rescaleBBoxXYWH arr ⟨[2], [sx, sy]⟩ ⟨[2], [ox, oy]⟩ =
      Except.ok ⟨arr.shape,
        mapIdxFrom
          (fun idx v =>
            match colIndex arr.shape idx with
            | 0 => v * sx + ox
            | 1 => v * sy + oy
            | 2 => v * sx
            | 3 => v * sy
            | _ => v)
          0 arr.data⟩ := by
  have h4 : 4 ≤ arr.shape[1]?.getD 0 := by
    have h := hc.2
    cases hsh : arr.shape with
    | nil => rw [hsh] at h; simpa using h
    | cons a rest =>
      cases rest with
      | nil => rw [hsh] at h; simpa using h
      | cons b rest₂ => rw [hsh] at h; simpa using h
  unfold rescaleBBoxXYWH
  simp [item1D, hc.1, h4]

/-- Row `r` of the BBOX_XYWH column transform of a `(n, 4)` array: the x and
y entries are scaled and offset, the w and h entries only scaled. -/
theorem rescaleBBoxXYWH_row (arr : NDArray) (sx sy ox oy : ℤ) (n r : Nat)
    (x y w h : ℤ) (harr : arr.shape = [n, 4]) (hrow : arr.row r = [x, y, w, h]) :
    NDArray.row
      ⟨arr.shape,
       mapIdxFrom
         (fun idx v =>
           match colIndex arr.shape idx with
           | 0 => v * sx + ox
           | 1 => v * sy + oy
           | 2 => v * sx
           | 3 => v * sy
           | _ => v)
         0 arr.data⟩ r = [x * sx + ox, y * sy + oy, w * sx, h * sy] := by
  have htp : arr.tailProd = 4 := by simp [NDArray.tailProd, harr]
  rw [row_mapIdxFrom, htp, hrow]
  have e0 : r * 4 % 4 = 0 := by omega
  have e1 : (r * 4 + 1) % 4 = 1 := by omega
  have e2 : (r * 4 + 1 + 1) % 4 = 2 := by omega
  have e3 : (r * 4 + 1 + 1 + 1) % 4 = 3 := by omega
  simp [mapIdxFrom, colIndex, harr, e0, e1, e2, e3]

/-- C9: in BBOX_XYWH mode with a single global scale pair and offset pair in
the context, every row `(x, y, w, h)` of a configured `(n, 4)` array maps to
`(x * sx + ox, y * sy + oy, w * sx, h * sy)`: the width and height are scaled
without receiving any offset.  Keys not configured are copied unchanged and
the context is returned as it is. -/
theorem C9_rescale_bbox_xywh (cfg : RescaleAndOffset) (preds : Outputs) (ctx : Context)
    (sx sy ox oy : ℤ)
    (hmode : cfg.mode = RescaleAndOffset.Mode.BBOX_XYWH)
    (hsc : ctx.scales = some ⟨[2], [sx, sy]⟩)
    (hof : ctx.offsets = some ⟨[2], [ox, oy]⟩)
    (hok : ∀ nv ∈ preds, nv.1 ∈ cfg.keys_to_rescale →
      2 ≤ nv.2.shape.length ∧ 4 ≤ nv.2.shape.tail.headD 0) :
    ∃ outs, cfg.call preds ctx = Except.ok (outs, ctx) ∧
      List.Forall₂
        (fun nv nv' => nv'.1 = nv.1 ∧
          (nv.1 ∉ cfg.keys_to_rescale → nv' = nv) ∧
          (nv.1 ∈ cfg.keys_to_rescale → nv'.2.shape = nv.2.shape ∧
            ∀ n, nv.2.shape = [n, 4] →
              ∀ r x y w h, r < n → nv.2.row r = [x, y, w, h] →
                nv'.2.row r = [x * sx + ox, y * sy + oy, w * sx, h * sy]))
        preds outs := by
  have hpoint : ∀ nv ∈ preds,
      ∃ b, cfg.rescaleEntry ⟨[2], [sx, sy]⟩ ⟨[2], [ox, oy]⟩ nv = Except.ok b := by
    intro nv hnv
    by_cases hk : nv.1 ∈ cfg.keys_to_rescale
    · obtain ⟨res, hres⟩ : ∃ res,
          rescaleBBoxXYWH nv.2 ⟨[2], [sx, sy]⟩ ⟨[2], [ox, oy]⟩ = Except.ok res :=
        ⟨_, rescaleBBoxXYWH_eq nv.2 sx sy ox oy (hok nv hnv hk)⟩
      exact ⟨(nv.1, res), by
        simp [RescaleAndOffset.rescaleEntry, hk, RescaleAndOffset.rescaleOne, hmode, hres]⟩
    · exact ⟨nv, by simp [RescaleAndOffset.rescaleEntry, hk]⟩
  obtain ⟨outs, hm, hf⟩ := mapExcept_ok_exists _ preds hpoint
  refine ⟨outs, by simp [RescaleAndOffset.call, hsc, hof, hm], ?_⟩
  refine forall₂_imp_of_mem hf ?_
  intro nv b hnv hr
  by_cases hk : nv.1 ∈ cfg.keys_to_rescale
  · have heq := rescaleBBoxXYWH_eq nv.2 sx sy ox oy (hok nv hnv hk)
    simp [RescaleAndOffset.rescaleEntry, hk, RescaleAndOffset.rescaleOne, hmode, heq] at hr
    refine ⟨by rw [← hr], fun hn => absurd hk hn, fun _ => ⟨by rw [← hr], ?_⟩⟩
    intro n harr r x y w h hrn hrow
    rw [← hr]
    exact rescaleBBoxXYWH_row nv.2 sx sy ox oy n r x y w h harr hrow
  · simp [RescaleAndOffset.rescaleEntry, hk] at hr
    exact ⟨by rw [← hr], fun _ => hr.symm, fun hk2 => absurd hk2 hk⟩

/-- C9 witness: one `(1, 4)` box with scales `(10, 100)`, offsets `(7, 9)`. -/
theorem C9_rescale_bbox_xywh_witness :
    (∀ nv ∈ [(("bboxes" : String), (⟨[1, 4], [1, 2, 3, 4]⟩ : NDArray))],
      nv.1 ∈ ["bboxes"] → 2 ≤ nv.2.shape.length ∧ 4 ≤ nv.2.shape.tail.headD 0) ∧
    ∃ outs,
      RescaleAndOffset.call ⟨["bboxes"], RescaleAndOffset.Mode.BBOX_XYWH⟩
          [("bboxes", ⟨[1, 4], [1, 2, 3, 4]⟩)]
          ⟨some ⟨[2], [10, 100]⟩, some ⟨[2], [7, 9]⟩, none, none⟩ =
        Except.ok (outs, ⟨some ⟨[2], [10, 100]⟩, some ⟨[2], [7, 9]⟩, none, none⟩) ∧
      List.Forall₂
        (fun nv nv' => nv'.1 = nv.1 ∧
          (nv.1 ∉ ["bboxes"] → nv' = nv) ∧
          (nv.1 ∈ ["bboxes"] → nv'.2.shape = nv.2.shape ∧
            ∀ n, nv.2.shape = [n, 4] →
              ∀ r x y w h, r < n → nv.2.row r = [x, y, w, h] →
                nv'.2.row r = [x * 10 + 7, y * 100 + 9, w * 10, h * 100]))
        [("bboxes", ⟨[1, 4], [1, 2, 3, 4]⟩)] outs :=
  ⟨by decide,
   C9_rescale_bbox_xywh ⟨["bboxes"], RescaleAndOffset.Mode.BBOX_XYWH⟩
     [("bboxes", ⟨[1, 4], [1, 2, 3, 4]⟩)]
     ⟨some ⟨[2], [10, 100]⟩, some ⟨[2], [7, 9]⟩, none, none⟩
     10 100 7 9 rfl rfl rfl (by decide)⟩

/-- Sum of a map whose every value is 1 is the length. -/
theorem sum_map_const_one (f : α → Nat) :
    ∀ l : List α, (∀ x ∈ l, f x = 1) → (l.map f).sum = l.length
  | [], _ => rfl
  | x :: rest, h => by
    have hr := sum_map_const_one f rest (fun b hb => h b (List.mem_cons_of_mem _ hb))
    rw [List.map_cons, List.sum_cons, h x (List.mem_cons_self _ _), hr, List.length_cons]
    omega

/-- C5 counterexample: two candidates whose per-candidate arrays have shape
`(2, 1)`.  `ConcatenateOutputs` joins them along the existing leading axis
into a `(4, 1)` array — not the `(2, 2, 1)` stack along a new leading axis —
and row 1 of the output is `[6]`, the second row of candidate 0, not the data
`[7, 8]` of candidate 1. -/
theorem C5_concatenate_not_stack_counterexample :
    ConcatenateOutputs.call ⟨[("k", "h", "v")], none, false⟩
        [[("h", [("v", ⟨[2, 1], [5, 6]⟩)])], [("h", [("v", ⟨[2, 1], [7, 8]⟩)])]]
        ⟨none, none, none, none⟩ =
      Except.ok ([("k", ⟨[4, 1], [5, 6, 7, 8]⟩)], ⟨none, none, none, none⟩) ∧
    (⟨[4, 1], [5, 6, 7, 8]⟩ : NDArray) ≠
      stackNewAxis [⟨[2, 1], [5, 6]⟩, ⟨[2, 1], [7, 8]⟩] ∧
    NDArray.row ⟨[4, 1], [5, 6, 7, 8]⟩ 1 = [6] ∧
    (⟨[2, 1], [7, 8]⟩ : NDArray).data = [7, 8] ∧
    ([6] : List ℤ) ≠ [7, 8] :=
  ⟨rfl, by decide, rfl, rfl, by decide⟩

/-- The non-empty branch of `ConcatenateOutputs.__call__` on one key, when
each candidate holds a `(1, *tail)` array for that key: the concatenation
succeeds, has shape `(num_candidates, *tail)`, and its row `i` is exactly the
buffer of candidate `i`'s array. -/
theorem concatEntry_rows (preds : List Prediction) (key : String × String × String)
    (tail : List Nat) (hne : preds ≠ [])
    (hdata : ∀ p ∈ preds, ∃ arr, predLookup p key.2.1 key.2.2 = Except.ok arr ∧
      arr.shape = 1 :: tail ∧ arr.wf) :
    ∃ c, ConcatenateOutputs.concatEntry preds key = Except.ok (key.1, c) ∧
      c.shape = preds.length :: tail ∧
      ∀ (i : Nat) (hi : i < preds.length), ∃ arr,
        predLookup preds[i] key.2.1 key.2.2 = Except.ok arr ∧
        c.row i = arr.data := by
  obtain ⟨arrs, hm, hf⟩ :=
    mapExcept_ok_exists (fun p => predLookup p key.2.1 key.2.2) preds
      (fun p hp => (hdata p hp).imp (fun arr h => h.1))
  have hlen := hf.length_eq
  have harrs : ∀ b ∈ arrs, b.shape = 1 :: tail ∧ b.wf := by
    intro b hb
    obtain ⟨p, hp, hpb⟩ := forall₂_right_mem hf b hb
    obtain ⟨arr, ha, hsh, hwf⟩ := hdata p hp
    have hba : b = arr := Except.ok.inj (hpb.symm.trans ha)
    rw [hba]; exact ⟨hsh, hwf⟩
  have hdlen : ∀ d ∈ arrs.map (fun b => b.data), d.length = tail.prod := by
    intro d hd
    obtain ⟨b, hb, rfl⟩ := List.mem_map.mp hd
    have hb2 := harrs b hb
    have hw := hb2.2
    unfold NDArray.wf at hw
    rw [hb2.1] at hw
    simpa using hw
  obtain ⟨a, rest, rfl⟩ : ∃ a rest, arrs = a :: rest := by
    cases arrs with
    | nil =>
      cases preds with
      | nil => exact absurd rfl hne
      | cons p ps => simp at hlen
    | cons a rest => exact ⟨a, rest, rfl⟩
  have hashape := (harrs a (List.mem_cons_self _ _)).1
  have hcheck :
      ((a :: rest).all fun b => !b.shape.isEmpty && b.shape.tail == a.shape.tail) = true := by
    rw [List.all_eq_true]
    intro b hb
    rw [(harrs b hb).1, hashape]
    simp
  have hsum : ((a :: rest).map (fun b => b.leadingDim)).sum = (a :: rest).length :=
    sum_map_const_one _ _ (fun b hb => by simp [NDArray.leadingDim, (harrs b hb).1])
  have hconc : concatenateArrays (a :: rest) =
      Except.ok ⟨(a :: rest).length :: tail, ((a :: rest).map (fun b => b.data)).flatten⟩ := by
    simp only [concatenateArrays]
    rw [if_pos hcheck, hsum, hashape]
    rfl
  refine ⟨⟨(a :: rest).length :: tail, ((a :: rest).map (fun b => b.data)).flatten⟩,
    ?_, by rw [hlen], ?_⟩
  · simp [ConcatenateOutputs.concatEntry, hm, hconc]
  · intro i hi
    have hi2 : i < (a :: rest).length := by rw [← hlen]; exact hi
    refine ⟨(a :: rest).get ⟨i, hi2⟩, ?_, ?_⟩
    · have := hf.get hi hi2
      simpa using this
    · show ((((a :: rest).map (fun b => b.data)).flatten.drop (i * tail.prod)).take tail.prod) =
        ((a :: rest).get ⟨i, hi2⟩).data
      rw [flatten_drop_take tail.prod _ i hdlen (by simpa using hi2)]
      rw [List.getD_eq_getElem?_getD, List.getElem?_map, List.getElem?_eq_getElem hi2]
      simp

/-- C5 amended: on a non-empty candidate list, `ConcatenateOutputs` joins the
per-candidate arrays along the EXISTING leading axis, in input order; when
every candidate's array for a key has leading dimension 1 (the shape the
models emit per candidate), the output for that key has shape
`(num_candidates, *tail)` and its row `i` equals the buffer of the `i`-th
candidate's array. -/
theorem C5_concatenate_row_correspondence (cfg : ConcatenateOutputs)
    (preds : List Prediction) (ctx : Context) (hne : preds ≠ [])
    (hdata : ∀ k ∈ cfg.keys_to_concatenate, ∃ tail, ∀ p ∈ preds,
      ∃ arr, predLookup p k.2.1 k.2.2 = Except.ok arr ∧ arr.shape = 1 :: tail ∧ arr.wf) :
    ∃ outs, cfg.call preds ctx = Except.ok (outs, ctx) ∧
      List.Forall₂
        (fun k nv => nv.1 = k.1 ∧
          ∀ tail,
            (∀ p ∈ preds, ∃ arr, predLookup p k.2.1 k.2.2 = Except.ok arr ∧
              arr.shape = 1 :: tail ∧ arr.wf) →
            nv.2.shape = preds.length :: tail ∧
            ∀ (i : Nat) (hi : i < preds.length), ∃ arr,
              predLookup preds[i] k.2.1 k.2.2 = Except.ok arr ∧ nv.2.row i = arr.data)
        cfg.keys_to_concatenate outs := by
  have hpoint : ∀ k ∈ cfg.keys_to_concatenate,
      ∃ b, ConcatenateOutputs.concatEntry preds k = Except.ok b := by
    intro k hk
    obtain ⟨tail, htail⟩ := hdata k hk
    obtain ⟨c, hc, _, _⟩ := concatEntry_rows preds k tail hne htail
    exact ⟨(k.1, c), hc⟩
  obtain ⟨outs, hm, hf⟩ := mapExcept_ok_exists _ cfg.keys_to_concatenate hpoint
  refine ⟨outs, ?_, ?_⟩
  · cases preds with
    | nil => exact absurd rfl hne
    | cons p ps => simp [ConcatenateOutputs.call, hm]
  · refine forall₂_imp_of_mem hf ?_
    intro k b hk hr
    obtain ⟨tail₀, htail₀⟩ := hdata k hk
    obtain ⟨c, hc, hcs, hcrow⟩ := concatEntry_rows preds k tail₀ hne htail₀
    have hb : b = (k.1, c) := Except.ok.inj (hr.symm.trans hc)
    subst hb
    refine ⟨rfl, ?_⟩
    intro tail htail
    obtain ⟨p₀, hp₀⟩ : ∃ p, p ∈ preds := by
      cases preds with
      | nil => exact absurd rfl hne
      | cons p ps => exact ⟨p, List.mem_cons_self _ _⟩
    obtain ⟨arr₁, ha₁, hs₁, _⟩ := htail₀ p₀ hp₀
    obtain ⟨arr₂, ha₂, hs₂, _⟩ := htail p₀ hp₀
    have harr : arr₁ = arr₂ := Except.ok.inj (ha₁.symm.trans ha₂)
    have htt : tail₀ = tail := by
      rw [harr, hs₂] at hs₁
      exact (List.cons.injEq _ _ _ _).mp hs₁.symm |>.2
    subst htt
    exact ⟨hcs, hcrow⟩

/-- C5 witness for the amended claim: two candidates, each with a `(1, 2)`
array, concatenate to a `(2, 2)` array whose row `i` is candidate `i`'s
data. -/
theorem C5_concatenate_row_correspondence_witness :
    (([[("h", [("v", (⟨[1, 2], [5, 6]⟩ : NDArray))])],
       [("h", [("v", ⟨[1, 2], [7, 8]⟩)])]] : List Prediction) ≠ []) ∧
    (∀ k ∈ ([("k", "h", "v")] : List (String × String × String)), ∃ tail,
      ∀ p ∈ ([[("h", [("v", (⟨[1, 2], [5, 6]⟩ : NDArray))])],
              [("h", [("v", ⟨[1, 2], [7, 8]⟩)])]] : List Prediction),
        ∃ arr, predLookup p k.2.1 k.2.2 = Except.ok arr ∧
          arr.shape = 1 :: tail ∧ arr.wf) ∧
    ∃ outs,
      ConcatenateOutputs.call ⟨[("k", "h", "v")], none, false⟩
          [[("h", [("v", ⟨[1, 2], [5, 6]⟩)])], [("h", [("v", ⟨[1, 2], [7, 8]⟩)])]]
          ⟨none, none, none, none⟩ =
        Except.ok (outs, ⟨none, none, none, none⟩) ∧
      List.Forall₂
        (fun k nv => nv.1 = k.1 ∧
          ∀ tail,
            (∀ p ∈ ([[("h", [("v", (⟨[1, 2], [5, 6]⟩ : NDArray))])],
                     [("h", [("v", ⟨[1, 2], [7, 8]⟩)])]] : List Prediction),
              ∃ arr, predLookup p k.2.1 k.2.2 = Except.ok arr ∧
                arr.shape = 1 :: tail ∧ arr.wf) →
            nv.2.shape =
              ([[("h", [("v", (⟨[1, 2], [5, 6]⟩ : NDArray))])],
                [("h", [("v", ⟨[1, 2], [7, 8]⟩)])]] : List Prediction).length :: tail ∧
            ∀ (i : Nat)
              (hi : i < ([[("h", [("v", (⟨[1, 2], [5, 6]⟩ : NDArray))])],
                          [("h", [("v", ⟨[1, 2], [7, 8]⟩)])]] : List Prediction).length),
              ∃ arr,
                predLookup
                    ([[("h", [("v", (⟨[1, 2], [5, 6]⟩ : NDArray))])],
                      [("h", [("v", ⟨[1, 2], [7, 8]⟩)])]] : List Prediction)[i]
                    k.2.1 k.2.2 =
                  Except.ok arr ∧
                nv.2.row i = arr.data)
        [("k", "h", "v")] outs := by
  have hdata : ∀ k ∈ ([("k", "h", "v")] : List (String × String × String)), ∃ tail,
      ∀ p ∈ ([[("h", [("v", (⟨[1, 2], [5, 6]⟩ : NDArray))])],
              [("h", [("v", ⟨[1, 2], [7, 8]⟩)])]] : List Prediction),
        ∃ arr, predLookup p k.2.1 k.2.2 = Except.ok arr ∧
          arr.shape = 1 :: tail ∧ arr.wf := by
    intro k hk
    have hk2 := List.mem_singleton.mp hk
    subst hk2
    refine ⟨[2], ?_⟩
    intro p hp
    rcases List.mem_cons.mp hp with rfl | hp₂
    · exact ⟨⟨[1, 2], [5, 6]⟩, rfl, rfl, by decide⟩
    rcases List.mem_cons.mp hp₂ with rfl | hp₃
    · exact ⟨⟨[1, 2], [7, 8]⟩, rfl, rfl, by decide⟩
    exact absurd hp₃ (List.not_mem_nil p)
  exact ⟨by simp, hdata,
    C5_concatenate_row_correspondence ⟨[("k", "h", "v")], none, false⟩
      [[("h", [("v", ⟨[1, 2], [5, 6]⟩)])], [("h", [("v", ⟨[1, 2], [7, 8]⟩)])]]
      ⟨none, none, none, none⟩ (by simp) hdata⟩
